import Mathlib

/-! NRIC / FIN validation: a shallow embedding of `nric.go`.

Go strings are byte sequences, so an identifier is a list of bytes and
`len`, `s[i]` are byte length and byte indexing.  A run-time panic (index
out of range) is modelled by `none` in an outer `Option`; a Go `error`
result is an `Option GoError` whose `none` is `nil`.
-/

namespace Nric

set_option maxRecDepth 100000

/-! ## Bytes, strings and indexing -/

/-- A Go `byte`. -/
abbrev Byte := Fin 256

/-- A Go `string`: an immutable sequence of bytes. -/
abbrev GoString := List Byte

/-- The bytes of an ASCII string literal of the source. -/
def ascii (s : String) : GoString :=
  s.data.map fun c => Fin.ofNat c.toNat

/-- The expression `s[i]` for a Go `int` index: `none` is the panic
"index out of range" (negative index or `i >= len(s)`). -/
def index (s : GoString) (i : Int) : Option Byte :=
  if 0 ≤ i then s.get? i.toNat else none

/-- The expression `int(b - c)` on bytes: the subtraction is done in `uint8`
and wraps modulo 256 before the conversion to `int`. -/
def byteSub (b c : Byte) : Int :=
  ((b.val + 256 - c.val) % 256 : Nat)

/-! ## Errors (`errors.New`, `fmt.Errorf` with `%w`, `errors.Is`) -/

/-- The two error shapes the package creates. -/
inductive GoError where
  | errorString (text : GoString)
  | wrapError (msg : GoString) (err : GoError)
deriving DecidableEq, Repr

/-- The method `Error()`. -/
def GoError.Error : GoError → GoString
  | .errorString text => text
  | .wrapError msg _ => msg

/-- The function `errors.Is(e, target)`: `e` or an error it wraps is `target`. -/
def errorsIs : GoError → GoError → Bool
  | .errorString text, target => decide (GoError.errorString text = target)
  | .wrapError msg err, target =>
      decide (GoError.wrapError msg err = target) || errorsIs err target

/-- The call `fmt.Errorf("%w: %s", err, s)`. -/
def Errorf (err : GoError) (s : GoString) : GoError :=
  .wrapError (err.Error ++ ascii ": " ++ s) err

def ErrInvalidFormat : GoError := .errorString (ascii "invalid NRIC format")
def ErrInvalidChecksum : GoError := .errorString (ascii "invalid NRIC checksum")

/-! ## Constants -/

def length : Int := 9
def checksumCitizen : GoString := ascii "JZIHGFEDCBA"
def checksumForeigner : GoString := ascii "XWUTRQPNMLK"
def checksumForeigner2022 : GoString := ascii "XWUTRQPNJLK"
def prefixCitizen1900 : GoString := ascii "S"
def prefixCitizen2000 : GoString := ascii "T"
def prefixForeigner1900 : GoString := ascii "F"
def prefixForeigner2000 : GoString := ascii "G"
def prefixForeigner2022 : GoString := ascii "M"

/-! ## Regular expressions (the fragment of `regexp` the pattern uses) -/

/-- Syntax of the patterns: `^`, `$`, a character class of ASCII bytes,
concatenation, alternation and the counted repetition `r{n}`.  Capture
groups do not change what matches and are not represented. -/
inductive Regexp where
  | bol
  | eol
  | cls (cs : List Byte)
  | cat (r₁ r₂ : Regexp)
  | alt (r₁ r₂ : Regexp)
  | rep (n : Nat) (r : Regexp)
deriving Repr

/-- Runs `f` `n` times in sequence from position `p`, collecting the
positions reached. -/
def iter (f : Nat → List Nat) : Nat → Nat → List Nat
  | 0, p => [p]
  | n + 1, p => (f p).flatMap (iter f n)

/-- All positions at which a match of `re` that starts at position `p` of
`s` can end.  The classes hold ASCII bytes only, which in UTF-8 never occur
inside a multi-byte sequence, so matching byte by byte agrees with the
rune-wise matching of `regexp`. -/
def ends : Regexp → GoString → Nat → List Nat
  | .bol, _, p => if p = 0 then [p] else []
  | .eol, s, p => if p = s.length then [p] else []
  | .cls cs, s, p =>
      match s.get? p with
      | some b => if b ∈ cs then [p + 1] else []
      | none => []
  | .cat r₁ r₂, s, p => (ends r₁ s p).flatMap (ends r₂ s)
  | .alt r₁ r₂, s, p => ends r₁ s p ++ ends r₂ s p
  | .rep n r, s, p => iter (ends r s) n p

/-- The method `MatchString`: an unanchored search, some match starts at some
position of `s`. -/
def Regexp.MatchString (re : Regexp) (s : GoString) : Bool :=
  (List.range (s.length + 1)).any fun i => !(ends re s i).isEmpty

/-- The class `[\d]`. -/
def digitClass : Regexp := .cls (ascii "0123456789")

/-- The pattern of `validate`,
`^([%s%s][\d]{7}[%s])|([%s%s%s][\d]{7}[%s%s])$` with the constants
substituted.  Alternation binds weaker than concatenation, so `^` belongs to
the first branch only and `$` to the second only. -/
def regexPattern : Regexp :=
  .alt
    (.cat .bol
      (.cat (.cls (prefixCitizen1900 ++ prefixCitizen2000))
        (.cat (.rep 7 digitClass) (.cls checksumCitizen))))
    (.cat
      (.cat (.cls (prefixForeigner1900 ++ prefixForeigner2000 ++ prefixForeigner2022))
        (.cat (.rep 7 digitClass) (.cls (checksumForeigner ++ checksumForeigner2022))))
      .eol)

/-! ## The type `NRIC` and its methods -/

structure NRIC where
  id : GoString
deriving DecidableEq, Repr

def NRIC.String (n : NRIC) : GoString :=
  n.id

def NRIC.IsForeigner (n : NRIC) : Option Bool := do
  let pfx ← index n.id 0
  pure (pfx == prefixForeigner1900.get ⟨0, by decide⟩ ||
    pfx == prefixForeigner2000.get ⟨0, by decide⟩ ||
    pfx == prefixForeigner2022.get ⟨0, by decide⟩)

def NRIC.Is2000 (n : NRIC) : Option Bool := do
  let pfx ← index n.id 0
  pure (pfx == prefixCitizen2000.get ⟨0, by decide⟩ ||
    pfx == prefixForeigner2000.get ⟨0, by decide⟩)

def NRIC.IsSeriesM (n : NRIC) : Option Bool := do
  let b ← index n.id 0
  pure (b == prefixForeigner2022.get ⟨0, by decide⟩)

def NRIC.getOffset (n : NRIC) : Option Int := do
  if ← n.IsSeriesM then
    return 3
  if ← n.Is2000 then
    return 4
  return 0

def NRIC.getChecksumChars (n : NRIC) : Option GoString := do
  if ← n.IsSeriesM then
    return checksumForeigner2022
  if ← n.IsForeigner then
    return checksumForeigner
  return checksumCitizen

def checksumWeights : List Int := [2, 7, 6, 5, 4, 3, 2]

/-- The loop `for i, weight := range checksumWeights` of `generateChecksum`,
from index `i` on with `checksum` accumulated so far. -/
def weightLoop (id : GoString) : List Int → Int → Int → Option Int
  | [], _, checksum => some checksum
  | weight :: rest, i, checksum =>
      match index id (i + 1) with
      | none => none
      | some b => weightLoop id rest (i + 1) (checksum + byteSub b 48 * weight)

def NRIC.generateChecksum (n : NRIC) : Option Byte := do
  let offset ← n.getOffset
  let checksum ← weightLoop n.id checksumWeights 0 offset
  let checksumChars ← n.getChecksumChars
  index checksumChars (checksum.tmod 11)

def NRIC.validate (n : NRIC) : Option (Option GoError) :=
  if !regexPattern.MatchString n.id then
    some (some (Errorf ErrInvalidFormat n.id))
  else do
    let c ← n.generateChecksum
    let l ← index n.id (length - 1)
    if c != l then
      return some (Errorf ErrInvalidChecksum n.id)
    return none

/-- The constructor `NewNRIC`: the pair `(*NRIC, error)` it returns, or
`none` when it panics. -/
def NewNRIC (id : GoString) : Option (Option NRIC × Option GoError) :=
  let n : NRIC := { id := id }
  match n.validate with
  | none => none
  | some (some err) => some (none, some err)
  | some none => some (some n, none)

/-! ## The pattern, position by position (used in the proofs) -/

/-- The byte at position `p` of `s` exists and lies in `cs`. -/
def clsAt (cs : List Byte) (s : GoString) (p : Nat) : Bool :=
  match s.get? p with
  | some b => decide (b ∈ cs)
  | none => false

/-- A byte from `pre` at position `p` of `s`, seven digits after it and then
a byte from `last`. -/
def formAt (pre last : List Byte) (s : GoString) (p : Nat) : Prop :=
  clsAt pre s p = true ∧ (∀ k < 7, clsAt (ascii "0123456789") s (p + 1 + k) = true)
    ∧ clsAt last s (p + 8) = true

instance (pre last : List Byte) (s : GoString) (p : Nat) : Decidable (formAt pre last s p) := by
  unfold formAt; infer_instance

/-! ## The checksum as the specification states it -/

namespace Spec

/-- The table of fixed domain constants: offset and checksum alphabet of each
prefix. -/
def table (p : Byte) : Option (Nat × GoString) :=
  if [p] = ascii "S" then some (0, ascii "JZIHGFEDCBA")
  else if [p] = ascii "T" then some (4, ascii "JZIHGFEDCBA")
  else if [p] = ascii "F" then some (0, ascii "XWUTRQPNMLK")
  else if [p] = ascii "G" then some (4, ascii "XWUTRQPNMLK")
  else if [p] = ascii "M" then some (3, ascii "XWUTRQPNJLK")
  else none

/-- The value of an ASCII digit. -/
def digitValue (d : Byte) : Nat :=
  d.val - 48

/-- The trailing letter expected after the prefix `p` and the digits
`d1 .. d7`: the letter at index `(offset + weighted digits) mod 11` of the
alphabet of `p`. -/
def checksumLetter (p d1 d2 d3 d4 d5 d6 d7 : Byte) : Option Byte :=
  match table p with
  | some (offset, alphabet) =>
      alphabet.get? ((offset + 2 * digitValue d1 + 7 * digitValue d2 + 6 * digitValue d3
        + 5 * digitValue d4 + 4 * digitValue d5 + 3 * digitValue d6 + 2 * digitValue d7) % 11)
  | none => none

/-- The permitted last characters of the category of the prefix `p`: the
citizen alphabet for `S, T`, the union of the two foreigner alphabets for
`F, G, M`. -/
def lastAlphabet (p : Byte) : List Byte :=
  if p ∈ ascii "ST" then ascii "JZIHGFEDCBA"
  else if p ∈ ascii "FGM" then ascii "XWUTRQPNMLK" ++ ascii "XWUTRQPNJLK"
  else []

/-- The whole-string positional check: exactly nine bytes, which are a
citizen prefix, seven digits and a letter of the citizen alphabet, or a
foreigner prefix, seven digits and a letter of one of the two foreigner
alphabets. -/
def positional (s : GoString) : Bool :=
  match s with
  | [p, d1, d2, d3, d4, d5, d6, d7, c] =>
      [d1, d2, d3, d4, d5, d6, d7].all (fun d => decide (d ∈ ascii "0123456789"))
        && ((decide (p ∈ ascii "ST") && decide (c ∈ ascii "JZIHGFEDCBA"))
          || (decide (p ∈ ascii "FGM")
            && (decide (c ∈ ascii "XWUTRQPNMLK") || decide (c ∈ ascii "XWUTRQPNJLK"))))
  | _ => false

end Spec

/-! ## Lemmas on the pattern -/

theorem ends_cls (cs : List Byte) (s : GoString) (p : Nat) :
    ends (.cls cs) s p = if clsAt cs s p = true then [p + 1] else [] := by
  unfold ends clsAt
  cases s.get? p with
  | none => simp
  | some b => by_cases h : b ∈ cs <;> simp [h]

theorem ends_cat_cls (cs : List Byte) (r : Regexp) (s : GoString) (p : Nat) :
    ends (.cat (.cls cs) r) s p = if clsAt cs s p = true then ends r s (p + 1) else [] := by
  rw [ends, ends_cls]
  split <;> simp

theorem iter_cls (cs : List Byte) (s : GoString) (n p : Nat) :
    iter (ends (.cls cs) s) n p
      = if ∀ k < n, clsAt cs s (p + k) = true then [p + n] else [] := by
  induction n generalizing p with
  | zero => simp [iter]
  | succ n ih =>
    rw [iter, ends_cls]
    by_cases h0 : clsAt cs s p = true
    · have hall : (∀ k < n + 1, clsAt cs s (p + k) = true)
          ↔ ∀ k < n, clsAt cs s (p + 1 + k) = true := by
        constructor
        · intro h k hk
          have := h (k + 1) (by omega)
          rwa [show p + 1 + k = p + (k + 1) by omega]
        · intro h k hk
          cases k with
          | zero => simpa using h0
          | succ k =>
            have := h k (by omega)
            rwa [show p + (k + 1) = p + 1 + k by omega]
      simp only [h0, if_true, List.flatMap_singleton, ih, hall]
      by_cases h1 : ∀ k < n, clsAt cs s (p + 1 + k) = true
      · rw [if_pos h1, if_pos h1, Nat.add_assoc, Nat.add_comm 1 n]
      · rw [if_neg h1, if_neg h1]
    · have : ¬ ∀ k < n + 1, clsAt cs s (p + k) = true := fun h => h0 (by simpa using h 0 (by omega))
      simp [h0, this]

theorem ends_form (pre last : List Byte) (s : GoString) (p : Nat) :
    ends (.cat (.cls pre) (.cat (.rep 7 digitClass) (.cls last))) s p
      = if formAt pre last s p then [p + 9] else [] := by
  rw [ends_cat_cls]
  by_cases h0 : clsAt pre s p = true
  · rw [if_pos h0, ends]
    have hrep : ends (.rep 7 digitClass) s (p + 1)
        = iter (ends (.cls (ascii "0123456789")) s) 7 (p + 1) := by
      rw [ends, digitClass]
    rw [hrep, iter_cls]
    by_cases h1 : ∀ k < 7, clsAt (ascii "0123456789") s (p + 1 + k) = true
    · rw [if_pos h1, List.flatMap_singleton, ends_cls]
      by_cases h2 : clsAt last s (p + 8) = true
      · rw [if_pos (by simpa using h2), if_pos ⟨h0, h1, h2⟩]
      · rw [if_neg (by simpa using h2), if_neg (fun h => h2 h.2.2)]
    · rw [if_neg h1, if_neg (fun h => h1 h.2.1)]
      rfl
  · rw [if_neg h0, if_neg (fun h => h0 h.1)]

/-- The format check, position by position: the citizen form at the start of
`s`, or the foreigner form on the last nine bytes of `s`. -/
theorem matchString_iff (s : GoString) :
    regexPattern.MatchString s = true ↔
      formAt (ascii "ST") (ascii "JZIHGFEDCBA") s 0
        ∨ (9 ≤ s.length
            ∧ formAt (ascii "FGM") (ascii "XWUTRQPNMLKXWUTRQPNJLK") s (s.length - 9)) := by
  have hc : ∀ p, ends (.cat .bol (.cat (.cls (prefixCitizen1900 ++ prefixCitizen2000))
      (.cat (.rep 7 digitClass) (.cls checksumCitizen)))) s p
      = if p = 0 ∧ formAt (ascii "ST") (ascii "JZIHGFEDCBA") s 0 then [9] else [] := by
    intro p
    rw [ends]
    by_cases hp : p = 0
    · subst hp
      have : ends .bol s 0 = [0] := by simp [ends]
      rw [this, List.flatMap_singleton, ends_form]
      have e1 : prefixCitizen1900 ++ prefixCitizen2000 = ascii "ST" := by decide
      have e2 : checksumCitizen = ascii "JZIHGFEDCBA" := by decide
      rw [e1, e2]
      by_cases h : formAt (ascii "ST") (ascii "JZIHGFEDCBA") s 0 <;> simp [h]
    · have : ends .bol s p = [] := by simp [ends, hp]
      rw [this]
      simp [hp]
  have hf : ∀ p, ends (.cat (.cat (.cls (prefixForeigner1900 ++ prefixForeigner2000
      ++ prefixForeigner2022)) (.cat (.rep 7 digitClass)
        (.cls (checksumForeigner ++ checksumForeigner2022)))) .eol) s p
      = if formAt (ascii "FGM") (ascii "XWUTRQPNMLKXWUTRQPNJLK") s p ∧ p + 9 = s.length
          then [p + 9] else [] := by
    intro p
    rw [ends, ends_form]
    have e1 : prefixForeigner1900 ++ prefixForeigner2000 ++ prefixForeigner2022
        = ascii "FGM" := by decide
    have e2 : checksumForeigner ++ checksumForeigner2022
        = ascii "XWUTRQPNMLKXWUTRQPNJLK" := by decide
    rw [e1, e2]
    by_cases h : formAt (ascii "FGM") (ascii "XWUTRQPNMLKXWUTRQPNJLK") s p
    · by_cases hl : p + 9 = s.length <;> simp [h, hl, ends]
    · simp [h]
  have he : ∀ p, ends regexPattern s p
      = (if p = 0 ∧ formAt (ascii "ST") (ascii "JZIHGFEDCBA") s 0 then [9] else [])
        ++ (if formAt (ascii "FGM") (ascii "XWUTRQPNMLKXWUTRQPNJLK") s p ∧ p + 9 = s.length
          then [p + 9] else []) := by
    intro p
    rw [regexPattern, ends, hc, hf]
  unfold Regexp.MatchString
  simp only [List.any_eq_true, List.mem_range, he]
  constructor
  · rintro ⟨i, hi, h⟩
    by_cases h1 : i = 0 ∧ formAt (ascii "ST") (ascii "JZIHGFEDCBA") s 0
    · exact Or.inl h1.2
    · by_cases h2 : formAt (ascii "FGM") (ascii "XWUTRQPNMLKXWUTRQPNJLK") s i ∧ i + 9 = s.length
      · right
        refine ⟨by omega, ?_⟩
        rw [show s.length - 9 = i by omega]
        exact h2.1
      · simp [h1, h2] at h
  · rintro (h | ⟨hl, h⟩)
    · exact ⟨0, by omega, by simp [h]⟩
    · refine ⟨s.length - 9, by omega, ?_⟩
      have : s.length - 9 + 9 = s.length := by omega
      simp [h, this]

/-! ## Lemmas on the checksum -/

theorem mem_digits (d : Byte) : d ∈ ascii "0123456789" ↔ 48 ≤ d.val ∧ d.val ≤ 57 := by
  have e : ascii "0123456789" = [48, 49, 50, 51, 52, 53, 54, 55, 56, 57] := by decide
  rw [e]
  simp only [List.mem_cons, List.mem_singleton, List.not_mem_nil, or_false, Fin.ext_iff]
  constructor
  · rintro (h | h | h | h | h | h | h | h | h | h) <;> rw [h] <;> decide
  · rintro ⟨h1, h2⟩
    omega

theorem byteSub_digit (d : Byte) (h : d ∈ ascii "0123456789") :
    byteSub d 48 = (Spec.digitValue d : Int) := by
  rw [mem_digits] at h
  unfold byteSub Spec.digitValue
  have : (48 : Byte).val = 48 := rfl
  rw [this]
  congr 1
  omega

theorem weightLoop_nine (p d1 d2 d3 d4 d5 d6 d7 c : Byte) (rest : GoString) (offset : Int) :
    weightLoop (p :: d1 :: d2 :: d3 :: d4 :: d5 :: d6 :: d7 :: c :: rest) checksumWeights 0 offset
      = some (offset + byteSub d1 48 * 2 + byteSub d2 48 * 7 + byteSub d3 48 * 6
          + byteSub d4 48 * 5 + byteSub d5 48 * 4 + byteSub d6 48 * 3 + byteSub d7 48 * 2) := by
  simp [weightLoop, checksumWeights, index]

theorem index_natCast (cs : GoString) (n : Nat) : index cs (n : Int) = cs.get? n := by
  simp [index]

theorem index_tmod (cs : GoString) (n : Nat) :
    index cs ((n : Int).tmod 11) = cs.get? (n % 11) := by
  have : (n : Int).tmod 11 = ((n % 11 : Nat) : Int) := (Int.ofNat_tmod n 11).symm
  rw [this, index_natCast]

/-- On a prefix of the table followed by seven digits, `generateChecksum`
computes the letter of the specification. -/
theorem generateChecksum_eq (p d1 d2 d3 d4 d5 d6 d7 c : Byte) (rest : GoString)
    (hp : p ∈ ascii "STFGM")
    (h1 : d1 ∈ ascii "0123456789") (h2 : d2 ∈ ascii "0123456789")
    (h3 : d3 ∈ ascii "0123456789") (h4 : d4 ∈ ascii "0123456789")
    (h5 : d5 ∈ ascii "0123456789") (h6 : d6 ∈ ascii "0123456789")
    (h7 : d7 ∈ ascii "0123456789") :
    (NRIC.mk (p :: d1 :: d2 :: d3 :: d4 :: d5 :: d6 :: d7 :: c :: rest)).generateChecksum
      = Spec.checksumLetter p d1 d2 d3 d4 d5 d6 d7 := by
  have e : ascii "STFGM" = [83, 84, 70, 71, 77] := by decide
  rw [e] at hp
  simp only [List.mem_cons, List.mem_singleton, List.not_mem_nil, or_false] at hp
  have cast : ∀ k : Nat, (k : Int) + (Spec.digitValue d1 : Int) * 2 + (Spec.digitValue d2 : Int) * 7
      + (Spec.digitValue d3 : Int) * 6 + (Spec.digitValue d4 : Int) * 5
      + (Spec.digitValue d5 : Int) * 4 + (Spec.digitValue d6 : Int) * 3
      + (Spec.digitValue d7 : Int) * 2
      = ((k + 2 * Spec.digitValue d1 + 7 * Spec.digitValue d2 + 6 * Spec.digitValue d3
        + 5 * Spec.digitValue d4 + 4 * Spec.digitValue d5 + 3 * Spec.digitValue d6
        + 2 * Spec.digitValue d7 : Nat) : Int) := by
    intro k; push_cast; ring
  have key : ∀ (q : Byte) (k : Nat) (cs : GoString),
      (NRIC.mk (q :: d1 :: d2 :: d3 :: d4 :: d5 :: d6 :: d7 :: c :: rest)).getOffset
        = some (k : Int) →
      (NRIC.mk (q :: d1 :: d2 :: d3 :: d4 :: d5 :: d6 :: d7 :: c :: rest)).getChecksumChars
        = some cs →
      Spec.table q = some (k, cs) →
      (NRIC.mk (q :: d1 :: d2 :: d3 :: d4 :: d5 :: d6 :: d7 :: c :: rest)).generateChecksum
        = Spec.checksumLetter q d1 d2 d3 d4 d5 d6 d7 := by
    intro q k cs ho hc ht
    unfold NRIC.generateChecksum Spec.checksumLetter
    rw [ho, hc, ht]
    simp only [Option.bind_eq_bind, Option.some_bind, weightLoop_nine, byteSub_digit, h1, h2, h3,
      h4, h5, h6, h7, cast, index_tmod]
  rcases hp with rfl | rfl | rfl | rfl | rfl
  · exact key 83 0 _ rfl rfl rfl
  · exact key 84 4 _ rfl rfl rfl
  · exact key 70 0 _ rfl rfl rfl
  · exact key 71 4 _ rfl rfl rfl
  · exact key 77 3 _ rfl rfl rfl

/-! ## Nine-byte strings -/

theorem formAt_nine (pre last : List Byte) (p d1 d2 d3 d4 d5 d6 d7 c : Byte) :
    formAt pre last [p, d1, d2, d3, d4, d5, d6, d7, c] 0 ↔
      p ∈ pre ∧ (d1 ∈ ascii "0123456789" ∧ d2 ∈ ascii "0123456789" ∧ d3 ∈ ascii "0123456789"
        ∧ d4 ∈ ascii "0123456789" ∧ d5 ∈ ascii "0123456789" ∧ d6 ∈ ascii "0123456789"
        ∧ d7 ∈ ascii "0123456789") ∧ c ∈ last := by
  simp [formAt, clsAt, Nat.forall_lt_succ, and_assoc]

theorem matchString_nine (p d1 d2 d3 d4 d5 d6 d7 c : Byte) :
    regexPattern.MatchString [p, d1, d2, d3, d4, d5, d6, d7, c] = true ↔
      (d1 ∈ ascii "0123456789" ∧ d2 ∈ ascii "0123456789" ∧ d3 ∈ ascii "0123456789"
        ∧ d4 ∈ ascii "0123456789" ∧ d5 ∈ ascii "0123456789" ∧ d6 ∈ ascii "0123456789"
        ∧ d7 ∈ ascii "0123456789")
      ∧ ((p ∈ ascii "ST" ∧ c ∈ ascii "JZIHGFEDCBA")
        ∨ (p ∈ ascii "FGM" ∧ c ∈ ascii "XWUTRQPNMLKXWUTRQPNJLK")) := by
  rw [matchString_iff]
  simp only [List.length_cons, List.length_nil, Nat.reduceAdd, Nat.le_refl, Nat.sub_self,
    true_and, formAt_nine]
  tauto

/-- A candidate that fails the format check is refused with the format error. -/
theorem newNRIC_of_not_match (s : GoString) (h : regexPattern.MatchString s = false) :
    NewNRIC s = some (none, some (Errorf ErrInvalidFormat s)) := by
  simp [NewNRIC, NRIC.validate, h]

/-- A candidate that passes the format check is accepted or refused with the
checksum error, by comparing the letter computed with its byte at index 8. -/
theorem newNRIC_of_match (s : GoString) (g l : Byte)
    (h : regexPattern.MatchString s = true)
    (hg : (NRIC.mk s).generateChecksum = some g) (hl : s.get? 8 = some l) :
    NewNRIC s = if g = l then some (some ⟨s⟩, none)
      else some (none, some (Errorf ErrInvalidChecksum s)) := by
  have hi : index s (length - 1) = some l := by
    rw [← hl]; simp [index, length]
  by_cases e : g = l <;> simp [NewNRIC, NRIC.validate, h, hg, hi, e]


set_option maxRecDepth 20000 in
theorem checksumLetter_mem (p d1 d2 d3 d4 d5 d6 d7 : Byte) (hp : p ∈ ascii "STFGM") :
    ∃ g, Spec.checksumLetter p d1 d2 d3 d4 d5 d6 d7 = some g ∧ g ∈ Spec.lastAlphabet p := by
  have e : ascii "STFGM" = [83, 84, 70, 71, 77] := by decide
  rw [e] at hp
  simp only [List.mem_cons, List.mem_singleton, List.not_mem_nil, or_false] at hp
  have key : ∀ (q : Byte) (k : Nat) (cs : GoString), Spec.table q = some (k, cs) →
      cs.length = 11 → (∀ x ∈ cs, x ∈ Spec.lastAlphabet q) →
      ∃ g, Spec.checksumLetter q d1 d2 d3 d4 d5 d6 d7 = some g ∧ g ∈ Spec.lastAlphabet q := by
    intro q k cs ht hlen hsub
    unfold Spec.checksumLetter
    rw [ht]
    have hlt : (k + 2 * Spec.digitValue d1 + 7 * Spec.digitValue d2 + 6 * Spec.digitValue d3
        + 5 * Spec.digitValue d4 + 4 * Spec.digitValue d5 + 3 * Spec.digitValue d6
        + 2 * Spec.digitValue d7) % 11 < cs.length := by
      rw [hlen]; exact Nat.mod_lt _ (by decide)
    exact ⟨cs.get ⟨_, hlt⟩, List.get?_eq_get hlt, hsub _ (List.get_mem _ _ _)⟩
  rcases hp with rfl | rfl | rfl | rfl | rfl
  · exact key 83 0 _ rfl rfl (by decide)
  · exact key 84 4 _ rfl rfl (by decide)
  · exact key 70 0 _ rfl rfl (by decide)
  · exact key 71 4 _ rfl rfl (by decide)
  · exact key 77 3 _ rfl rfl (by decide)

theorem lastAlphabet_iff (p c : Byte) (hp : p ∈ ascii "STFGM") :
    c ∈ Spec.lastAlphabet p ↔ (p ∈ ascii "ST" ∧ c ∈ ascii "JZIHGFEDCBA")
      ∨ (p ∈ ascii "FGM" ∧ c ∈ ascii "XWUTRQPNMLKXWUTRQPNJLK") := by
  have e : ascii "STFGM" = [83, 84, 70, 71, 77] := by decide
  have e1 : ascii "ST" = [83, 84] := by decide
  have e2 : ascii "FGM" = [70, 71, 77] := by decide
  have e3 : ascii "XWUTRQPNMLKXWUTRQPNJLK" = ascii "XWUTRQPNMLK" ++ ascii "XWUTRQPNJLK" := by
    decide
  rw [e] at hp
  unfold Spec.lastAlphabet
  rw [e1, e2, e3]
  simp only [List.mem_cons, List.mem_singleton, List.not_mem_nil, or_false] at hp ⊢
  rcases hp with rfl | rfl | rfl | rfl | rfl <;> simp

theorem prefix_mem (p : Byte) (h : p ∈ ascii "ST" ∨ p ∈ ascii "FGM") : p ∈ ascii "STFGM" := by
  have e : ascii "STFGM" = [83, 84, 70, 71, 77] := by decide
  have e1 : ascii "ST" = [83, 84] := by decide
  have e2 : ascii "FGM" = [70, 71, 77] := by decide
  rw [e1, e2] at h
  rw [e]
  simp only [List.mem_cons, List.mem_singleton, List.not_mem_nil, or_false] at h ⊢
  tauto

/-- The result of `NewNRIC` on a prefix of the table followed by seven digits
and any last byte. -/
theorem newNRIC_nine (p d1 d2 d3 d4 d5 d6 d7 c : Byte) (hp : p ∈ ascii "STFGM")
    (hd : ∀ d ∈ [d1, d2, d3, d4, d5, d6, d7], d ∈ ascii "0123456789") :
    NewNRIC [p, d1, d2, d3, d4, d5, d6, d7, c]
      = if c ∈ Spec.lastAlphabet p then
          (if Spec.checksumLetter p d1 d2 d3 d4 d5 d6 d7 = some c
            then some (some ⟨[p, d1, d2, d3, d4, d5, d6, d7, c]⟩, none)
            else some (none, some (Errorf ErrInvalidChecksum [p, d1, d2, d3, d4, d5, d6, d7, c])))
        else some (none, some (Errorf ErrInvalidFormat [p, d1, d2, d3, d4, d5, d6, d7, c])) := by
  simp only [List.mem_cons, List.mem_singleton, List.not_mem_nil, or_false, forall_eq_or_imp,
    forall_eq] at hd
  obtain ⟨h1, h2, h3, h4, h5, h6, h7⟩ := hd
  have hm : regexPattern.MatchString [p, d1, d2, d3, d4, d5, d6, d7, c] = true
      ↔ c ∈ Spec.lastAlphabet p := by
    rw [matchString_nine, lastAlphabet_iff p c hp]
    simp [h1, h2, h3, h4, h5, h6, h7]
  obtain ⟨g, hg, -⟩ := checksumLetter_mem p d1 d2 d3 d4 d5 d6 d7 hp
  by_cases hc : c ∈ Spec.lastAlphabet p
  · rw [if_pos hc, newNRIC_of_match _ g c (hm.2 hc)
      (by rw [generateChecksum_eq p d1 d2 d3 d4 d5 d6 d7 c [] hp h1 h2 h3 h4 h5 h6 h7, hg]) rfl,
      hg]
    simp
  · rw [if_neg hc]
    apply newNRIC_of_not_match
    cases hb : regexPattern.MatchString [p, d1, d2, d3, d4, d5, d6, d7, c] with
    | false => rfl
    | true => exact absurd (hm.1 hb) hc

/-- What `NewNRIC` returns when it returns an identifier. -/
theorem newNRIC_ok (s : GoString) (n : NRIC) (e : Option GoError)
    (h : NewNRIC s = some (some n, e)) :
    n = ⟨s⟩ ∧ e = none ∧ regexPattern.MatchString s = true := by
  cases hb : regexPattern.MatchString s with
  | false => rw [newNRIC_of_not_match s hb] at h; simp at h
  | true =>
    unfold NewNRIC at h
    cases hv : (NRIC.mk s).validate with
    | none => simp [hv] at h
    | some r =>
      cases r with
      | some err => simp [hv] at h
      | none =>
        simp only [hv, Option.some.injEq, Prod.mk.injEq] at h
        exact ⟨h.1.symm, h.2.symm, rfl⟩

theorem byte_of_clsAt (cs : List Byte) (s : GoString) (k : Nat) (h : clsAt cs s k = true) :
    ∃ b, s.get? k = some b ∧ b ∈ cs := by
  unfold clsAt at h
  cases hg : s.get? k with
  | none => rw [hg] at h; cases h
  | some b => rw [hg] at h; exact ⟨b, rfl, of_decide_eq_true h⟩

/-- A candidate that passes the format check has an uppercase prefix letter
among its bytes and at least nine bytes. -/
theorem match_needs_letter (s : GoString) (h : regexPattern.MatchString s = true) :
    9 ≤ s.length ∧ ∃ b ∈ s, b ∈ ascii "STFGM" := by
  rw [matchString_iff] at h
  rcases h with h | ⟨hl, h⟩
  · obtain ⟨b, hb, hm⟩ := byte_of_clsAt _ _ _ h.1
    obtain ⟨c, hc, -⟩ := byte_of_clsAt _ _ _ h.2.2
    have hlen : 0 + 8 < s.length := (List.get?_eq_some.1 hc).1
    exact ⟨by omega, b, List.get?_mem hb, prefix_mem b (Or.inl hm)⟩
  · obtain ⟨b, hb, hm⟩ := byte_of_clsAt _ _ _ h.1
    exact ⟨hl, b, List.get?_mem hb, prefix_mem b (Or.inr hm)⟩

theorem errorsIs_format (s : GoString) :
    errorsIs (Errorf ErrInvalidFormat s) ErrInvalidFormat = true
      ∧ errorsIs (Errorf ErrInvalidFormat s) ErrInvalidChecksum = false := by
  have hne : ErrInvalidFormat ≠ ErrInvalidChecksum := by decide
  constructor
  · simp [errorsIs, Errorf, ErrInvalidFormat]
  · unfold Errorf
    rw [errorsIs]
    have h1 : errorsIs ErrInvalidFormat ErrInvalidChecksum = false := by decide
    rw [h1]
    simp [ErrInvalidChecksum]

theorem errorsIs_checksum (s : GoString) :
    errorsIs (Errorf ErrInvalidChecksum s) ErrInvalidChecksum = true
      ∧ errorsIs (Errorf ErrInvalidChecksum s) ErrInvalidFormat = false := by
  constructor
  · simp [errorsIs, Errorf, ErrInvalidChecksum]
  · unfold Errorf
    rw [errorsIs]
    have h1 : errorsIs ErrInvalidChecksum ErrInvalidFormat = false := by decide
    rw [h1]
    simp [ErrInvalidFormat]

/-- An accepted nine-byte string has a prefix of the table, seven digits and
the checksum letter of the specification as its last byte. -/
theorem accepted_nine (p d1 d2 d3 d4 d5 d6 d7 c : Byte) (n : NRIC)
    (h : NewNRIC [p, d1, d2, d3, d4, d5, d6, d7, c] = some (some n, none)) :
    p ∈ ascii "STFGM" ∧ (∀ d ∈ [d1, d2, d3, d4, d5, d6, d7], d ∈ ascii "0123456789")
      ∧ Spec.checksumLetter p d1 d2 d3 d4 d5 d6 d7 = some c := by
  have hm := (newNRIC_ok _ n none h).2.2
  rw [matchString_nine] at hm
  obtain ⟨⟨h1, h2, h3, h4, h5, h6, h7⟩, hform⟩ := hm
  have hp : p ∈ ascii "STFGM" := prefix_mem p (hform.imp And.left And.left)
  have hd : ∀ d ∈ [d1, d2, d3, d4, d5, d6, d7], d ∈ ascii "0123456789" := by
    simp only [List.mem_cons, List.mem_singleton, List.not_mem_nil, or_false, forall_eq_or_imp,
      forall_eq]
    exact ⟨h1, h2, h3, h4, h5, h6, h7⟩
  refine ⟨hp, hd, ?_⟩
  rw [newNRIC_nine p d1 d2 d3 d4 d5 d6 d7 c hp hd] at h
  by_cases hc : c ∈ Spec.lastAlphabet p
  · rw [if_pos hc] at h
    by_cases hg : Spec.checksumLetter p d1 d2 d3 d4 d5 d6 d7 = some c
    · exact hg
    · rw [if_neg hg] at h; simp at h
  · rw [if_neg hc] at h; simp at h

/-- The four possible results of `NewNRIC`. -/
theorem newNRIC_cases (s : GoString) :
    NewNRIC s = none ∨ NewNRIC s = some (some ⟨s⟩, none)
      ∨ NewNRIC s = some (none, some (Errorf ErrInvalidFormat s))
      ∨ NewNRIC s = some (none, some (Errorf ErrInvalidChecksum s)) := by
  cases hb : regexPattern.MatchString s with
  | false => exact Or.inr (Or.inr (Or.inl (newNRIC_of_not_match s hb)))
  | true =>
    cases hg : (NRIC.mk s).generateChecksum with
    | none => left; simp [NewNRIC, NRIC.validate, hb, hg]
    | some g =>
      cases hl : index s (length - 1) with
      | none => left; simp [NewNRIC, NRIC.validate, hb, hg, hl]
      | some l =>
        by_cases e : g = l
        · right; left; simp [NewNRIC, NRIC.validate, hb, hg, hl, e]
        · right; right; right; simp [NewNRIC, NRIC.validate, hb, hg, hl, e]

/-- The three predicates on an identifier whose first byte is `p`. -/
theorem predicates_cons (p : Byte) (rest : GoString) :
    (NRIC.mk (p :: rest)).IsForeigner = some (decide (p ∈ ascii "FGM"))
      ∧ (NRIC.mk (p :: rest)).Is2000 = some (decide (p ∈ ascii "TG"))
      ∧ (NRIC.mk (p :: rest)).IsSeriesM = some (decide (p ∈ ascii "M")) := by
  have e1 : ascii "FGM" = [70, 71, 77] := by decide
  have e2 : ascii "TG" = [84, 71] := by decide
  have e3 : ascii "M" = [77] := by decide
  have hF : (NRIC.mk (p :: rest)).IsForeigner = some (p == 70 || p == 71 || p == 77) := rfl
  have hE : (NRIC.mk (p :: rest)).Is2000 = some (p == 84 || p == 71) := rfl
  have hM : (NRIC.mk (p :: rest)).IsSeriesM = some (p == 77) := rfl
  rw [e1, e2, e3, hF, hE, hM]
  simp only [List.mem_cons, List.mem_singleton, List.not_mem_nil, or_false, Bool.decide_or,
    Bool.or_assoc]
  exact ⟨rfl, rfl, rfl⟩

/-- The predicates of an accepted identifier are decided by its first byte. -/
theorem predicates_of_accepted (s : GoString) (n : NRIC)
    (h : NewNRIC s = some (some n, none)) :
    ∃ p, s.get? 0 = some p
      ∧ n.IsForeigner = some (decide (p ∈ ascii "FGM"))
      ∧ n.Is2000 = some (decide (p ∈ ascii "TG"))
      ∧ n.IsSeriesM = some (decide (p ∈ ascii "M"))
      ∧ (n.IsSeriesM = some true → n.IsForeigner = some true) := by
  obtain ⟨hn, -, hm⟩ := newNRIC_ok s n none h
  have hlen := (match_needs_letter s hm).1
  subst hn
  match s, hlen with
  | p :: rest, _ =>
    obtain ⟨hF, hE, hM⟩ := predicates_cons p rest
    refine ⟨p, rfl, hF, hE, hM, ?_⟩
    rw [hF, hM]
    have e1 : ascii "FGM" = [70, 71, 77] := by decide
    have e3 : ascii "M" = [77] := by decide
    rw [e1, e3]
    intro hx
    have hp : p = 77 := by simpa using hx
    subst hp
    rfl

/-! ## The claims -/

/-- C1: for every prefix among `S, T, F, G, M` and every seven ASCII digits
`d1 .. d7`, `NewNRIC` accepts (returns the value and no error for) the
nine-byte string made of the prefix, the digits and the letter at index
`(offset + 2*d1 + 7*d2 + 6*d3 + 5*d4 + 4*d5 + 3*d6 + 2*d7) mod 11` of the
alphabet that the table of constants gives for the prefix. -/
theorem newNRIC_accepts_table_letter (p d1 d2 d3 d4 d5 d6 d7 : Byte)
    (hp : p ∈ ascii "STFGM")
    (hd : ∀ d ∈ [d1, d2, d3, d4, d5, d6, d7], d ∈ ascii "0123456789") :
    ∃ offset alphabet c, Spec.table p = some (offset, alphabet)
      ∧ alphabet.get? ((offset + 2 * Spec.digitValue d1 + 7 * Spec.digitValue d2
          + 6 * Spec.digitValue d3 + 5 * Spec.digitValue d4 + 4 * Spec.digitValue d5
          + 3 * Spec.digitValue d6 + 2 * Spec.digitValue d7) % 11) = some c
      ∧ NewNRIC [p, d1, d2, d3, d4, d5, d6, d7, c]
          = some (some ⟨[p, d1, d2, d3, d4, d5, d6, d7, c]⟩, none) := by
  obtain ⟨g, hg, hmem⟩ := checksumLetter_mem p d1 d2 d3 d4 d5 d6 d7 hp
  have hn := newNRIC_nine p d1 d2 d3 d4 d5 d6 d7 g hp hd
  rw [if_pos hmem, if_pos hg] at hn
  unfold Spec.checksumLetter at hg
  cases ht : Spec.table p with
  | none => rw [ht] at hg; cases hg
  | some r =>
    obtain ⟨offset, alphabet⟩ := r
    rw [ht] at hg
    exact ⟨offset, alphabet, g, rfl, hg, hn⟩

/-- Witness of C1 at `S6083480`: the letter found is accepted. -/
theorem newNRIC_accepts_table_letter_witness :
    (83 : Byte) ∈ ascii "STFGM"
      ∧ (∀ d ∈ ([54, 48, 56, 51, 52, 56, 48] : List Byte), d ∈ ascii "0123456789")
      ∧ ∃ offset alphabet c, Spec.table 83 = some (offset, alphabet)
        ∧ alphabet.get? ((offset + 2 * Spec.digitValue 54 + 7 * Spec.digitValue 48
            + 6 * Spec.digitValue 56 + 5 * Spec.digitValue 51 + 4 * Spec.digitValue 52
            + 3 * Spec.digitValue 56 + 2 * Spec.digitValue 48) % 11) = some c
        ∧ NewNRIC [83, 54, 48, 56, 51, 52, 56, 48, c]
            = some (some ⟨[83, 54, 48, 56, 51, 52, 56, 48, c]⟩, none) :=
  ⟨by decide, by decide,
    newNRIC_accepts_table_letter 83 54 48 56 51 52 56 48 (by decide) (by decide)⟩

/-- C2, at the input `S6083480FX`: the candidate has ten bytes, so it matches
neither form as a whole string, and `NewNRIC` returns it as an identifier with
no error instead of failing with `ErrInvalidFormat`. -/
theorem newNRIC_accepts_ten_bytes :
    (ascii "S6083480FX").length = 10
      ∧ NewNRIC (ascii "S6083480FX") = some (some ⟨ascii "S6083480FX"⟩, none) := by
  decide

/-- C4, at the input `XA000010G0000000X`: `NewNRIC` returns the candidate as
an identifier, although it has 17 bytes, its first byte `X` is no prefix
letter, its byte at position 1 is no digit, and the letter `G` computed by
`generateChecksum` differs from its last byte `X`. -/
theorem newNRIC_accepts_without_invariants :
    NewNRIC (ascii "XA000010G0000000X") = some (some ⟨ascii "XA000010G0000000X"⟩, none)
      ∧ (ascii "XA000010G0000000X").length = 17
      ∧ (ascii "XA000010G0000000X").get? 0 = some 88 ∧ (88 : Byte) ∉ ascii "STFGM"
      ∧ (ascii "XA000010G0000000X").get? 1 = some 65 ∧ (65 : Byte) ∉ ascii "0123456789"
      ∧ (NRIC.mk (ascii "XA000010G0000000X")).generateChecksum = some 71
      ∧ (ascii "XA000010G0000000X").getLast? = some 88 := by
  decide

/-- C3: a nine-byte string with a citizen prefix and a last byte of the
citizen alphabet, or a foreigner prefix and a last byte of one of the two
foreigner alphabets, with digits at positions 1 to 7, whose last byte is not
the checksum letter of its first eight bytes, is refused with an error that
wraps `ErrInvalidChecksum` and not `ErrInvalidFormat`. -/
theorem newNRIC_checksum_mismatch (p d1 d2 d3 d4 d5 d6 d7 c : Byte)
    (hd : ∀ d ∈ [d1, d2, d3, d4, d5, d6, d7], d ∈ ascii "0123456789")
    (hform : (p ∈ ascii "ST" ∧ c ∈ ascii "JZIHGFEDCBA")
      ∨ (p ∈ ascii "FGM" ∧ (c ∈ ascii "XWUTRQPNMLK" ∨ c ∈ ascii "XWUTRQPNJLK")))
    (hne : Spec.checksumLetter p d1 d2 d3 d4 d5 d6 d7 ≠ some c) :
    ∃ err, NewNRIC [p, d1, d2, d3, d4, d5, d6, d7, c] = some (none, some err)
      ∧ errorsIs err ErrInvalidChecksum = true ∧ errorsIs err ErrInvalidFormat = false := by
  have hp : p ∈ ascii "STFGM" := prefix_mem p (hform.imp And.left And.left)
  have hu : ∀ x : Byte, (x ∈ ascii "XWUTRQPNMLK" ∨ x ∈ ascii "XWUTRQPNJLK")
      → x ∈ ascii "XWUTRQPNMLKXWUTRQPNJLK" := by
    intro x hx
    have e : ascii "XWUTRQPNMLKXWUTRQPNJLK" = ascii "XWUTRQPNMLK" ++ ascii "XWUTRQPNJLK" := by
      decide
    rw [e]
    exact List.mem_append.2 hx
  have hc : c ∈ Spec.lastAlphabet p :=
    (lastAlphabet_iff p c hp).2 (hform.imp id (fun h => ⟨h.1, hu c h.2⟩))
  refine ⟨Errorf ErrInvalidChecksum [p, d1, d2, d3, d4, d5, d6, d7, c], ?_, ?_, ?_⟩
  · rw [newNRIC_nine p d1 d2 d3 d4 d5 d6 d7 c hp hd, if_pos hc, if_neg hne]
  · exact (errorsIs_checksum _).1
  · exact (errorsIs_checksum _).2

/-- Witness of C3 at `S1234567E`. -/
theorem newNRIC_checksum_mismatch_witness :
    (∀ d ∈ ([49, 50, 51, 52, 53, 54, 55] : List Byte), d ∈ ascii "0123456789")
      ∧ (((83 : Byte) ∈ ascii "ST" ∧ (69 : Byte) ∈ ascii "JZIHGFEDCBA")
        ∨ ((83 : Byte) ∈ ascii "FGM"
          ∧ ((69 : Byte) ∈ ascii "XWUTRQPNMLK" ∨ (69 : Byte) ∈ ascii "XWUTRQPNJLK")))
      ∧ Spec.checksumLetter 83 49 50 51 52 53 54 55 ≠ some 69
      ∧ ∃ err, NewNRIC [83, 49, 50, 51, 52, 53, 54, 55, 69] = some (none, some err)
        ∧ errorsIs err ErrInvalidChecksum = true ∧ errorsIs err ErrInvalidFormat = false :=
  ⟨by decide, by decide, by decide,
    newNRIC_checksum_mismatch 83 49 50 51 52 53 54 55 69 (by decide) (by decide) (by decide)⟩

/-- C5: round trip.  When `NewNRIC(s)` succeeds with the value `n`, then
`n.String()` is `s` itself. -/
theorem newNRIC_string_roundtrip (s : GoString) (n : NRIC)
    (h : NewNRIC s = some (some n, none)) : n.String = s := by
  rw [(newNRIC_ok s n none h).1]
  rfl

/-- Witness of C5 at `T5717279C`. -/
theorem newNRIC_string_roundtrip_witness :
    NewNRIC (ascii "T5717279C") = some (some ⟨ascii "T5717279C"⟩, none)
      ∧ (NRIC.mk (ascii "T5717279C")).String = ascii "T5717279C" :=
  ⟨by decide, newNRIC_string_roundtrip (ascii "T5717279C") ⟨ascii "T5717279C"⟩ (by decide)⟩

/-- C6: checksum sensitivity.  When `NewNRIC` accepts a nine-byte string and
only its last byte is replaced by a different byte, the result is refused:
with `ErrInvalidChecksum` when the new byte belongs to the permitted last
alphabet of the category of the prefix, with `ErrInvalidFormat` otherwise.
Hence after a prefix of the table and seven digits exactly one last byte is
accepted. -/
theorem newNRIC_last_byte_sensitivity (p d1 d2 d3 d4 d5 d6 d7 c c' : Byte) :
    (NewNRIC [p, d1, d2, d3, d4, d5, d6, d7, c]
        = some (some ⟨[p, d1, d2, d3, d4, d5, d6, d7, c]⟩, none) →
      c' ≠ c →
        (c' ∈ Spec.lastAlphabet p →
          ∃ err, NewNRIC [p, d1, d2, d3, d4, d5, d6, d7, c'] = some (none, some err)
            ∧ errorsIs err ErrInvalidChecksum = true ∧ errorsIs err ErrInvalidFormat = false)
        ∧ (c' ∉ Spec.lastAlphabet p →
          ∃ err, NewNRIC [p, d1, d2, d3, d4, d5, d6, d7, c'] = some (none, some err)
            ∧ errorsIs err ErrInvalidFormat = true ∧ errorsIs err ErrInvalidChecksum = false))
    ∧ (p ∈ ascii "STFGM" →
        (∀ d ∈ [d1, d2, d3, d4, d5, d6, d7], d ∈ ascii "0123456789") →
        ∃! x, NewNRIC [p, d1, d2, d3, d4, d5, d6, d7, x]
          = some (some ⟨[p, d1, d2, d3, d4, d5, d6, d7, x]⟩, none)) := by
  constructor
  · intro hacc hne
    obtain ⟨hp, hd, hg⟩ := accepted_nine p d1 d2 d3 d4 d5 d6 d7 c _ hacc
    have hn := newNRIC_nine p d1 d2 d3 d4 d5 d6 d7 c' hp hd
    constructor
    · intro hc
      have hg' : Spec.checksumLetter p d1 d2 d3 d4 d5 d6 d7 ≠ some c' := by
        rw [hg]; intro h; exact hne (Option.some.inj h).symm
      rw [if_pos hc, if_neg hg'] at hn
      exact ⟨_, hn, (errorsIs_checksum _).1, (errorsIs_checksum _).2⟩
    · intro hc
      rw [if_neg hc] at hn
      exact ⟨_, hn, (errorsIs_format _).1, (errorsIs_format _).2⟩
  · intro hp hd
    obtain ⟨g, hg, hmem⟩ := checksumLetter_mem p d1 d2 d3 d4 d5 d6 d7 hp
    refine ⟨g, ?_, ?_⟩
    · show NewNRIC [p, d1, d2, d3, d4, d5, d6, d7, g] = _
      rw [newNRIC_nine p d1 d2 d3 d4 d5 d6 d7 g hp hd, if_pos hmem, if_pos hg]
    · intro x hx
      have := (accepted_nine p d1 d2 d3 d4 d5 d6 d7 x _ hx).2.2
      rw [hg] at this
      exact (Option.some.inj this).symm

/-- Witness of C6 at `F6470401W`, whose last byte is replaced by `K` (in the
foreigner alphabets) and by `B` (outside them). -/
theorem newNRIC_last_byte_sensitivity_witness :
    NewNRIC (ascii "F6470401W") = some (some ⟨ascii "F6470401W"⟩, none)
      ∧ (75 : Byte) ≠ 87 ∧ (75 : Byte) ∈ Spec.lastAlphabet 70
      ∧ (∃ err, NewNRIC (ascii "F6470401K") = some (none, some err)
          ∧ errorsIs err ErrInvalidChecksum = true ∧ errorsIs err ErrInvalidFormat = false)
      ∧ (66 : Byte) ≠ 87 ∧ (66 : Byte) ∉ Spec.lastAlphabet 70
      ∧ (∃ err, NewNRIC (ascii "F6470401B") = some (none, some err)
          ∧ errorsIs err ErrInvalidFormat = true ∧ errorsIs err ErrInvalidChecksum = false)
      ∧ (70 : Byte) ∈ ascii "STFGM"
      ∧ (∀ d ∈ ([54, 52, 55, 48, 52, 48, 49] : List Byte), d ∈ ascii "0123456789")
      ∧ ∃! x, NewNRIC [70, 54, 52, 55, 48, 52, 48, 49, x]
          = some (some ⟨[70, 54, 52, 55, 48, 52, 48, 49, x]⟩, none) :=
  ⟨by decide, by decide, by decide,
    ((newNRIC_last_byte_sensitivity 70 54 52 55 48 52 48 49 87 75).1 (by decide) (by decide)).1
      (by decide),
    by decide, by decide,
    ((newNRIC_last_byte_sensitivity 70 54 52 55 48 52 48 49 87 66).1 (by decide) (by decide)).2
      (by decide),
    by decide, by decide,
    (newNRIC_last_byte_sensitivity 70 54 52 55 48 52 48 49 87 75).2 (by decide) (by decide)⟩

/-- C7: classification by prefix.  For an identifier `n` that `NewNRIC`
returns for `s`, the string has a first byte `s[0]`, `IsForeigner` is true
exactly when it is one of `F, G, M`, `Is2000` exactly when it is one of
`T, G`, `IsSeriesM` exactly when it is `M`; so `IsSeriesM` implies
`IsForeigner`. -/
theorem classification_by_prefix (s : GoString) (n : NRIC)
    (h : NewNRIC s = some (some n, none)) :
    ∃ p, s.get? 0 = some p
      ∧ n.IsForeigner = some (decide (p ∈ ascii "FGM"))
      ∧ n.Is2000 = some (decide (p ∈ ascii "TG"))
      ∧ n.IsSeriesM = some (decide (p ∈ ascii "M"))
      ∧ (n.IsSeriesM = some true → n.IsForeigner = some true) :=
  predicates_of_accepted s n h

/-- Witness of C7 at `M5043078W`. -/
theorem classification_by_prefix_witness :
    NewNRIC (ascii "M5043078W") = some (some ⟨ascii "M5043078W"⟩, none)
      ∧ ∃ p, (ascii "M5043078W").get? 0 = some p
        ∧ (NRIC.mk (ascii "M5043078W")).IsForeigner = some (decide (p ∈ ascii "FGM"))
        ∧ (NRIC.mk (ascii "M5043078W")).Is2000 = some (decide (p ∈ ascii "TG"))
        ∧ (NRIC.mk (ascii "M5043078W")).IsSeriesM = some (decide (p ∈ ascii "M"))
        ∧ ((NRIC.mk (ascii "M5043078W")).IsSeriesM = some true
          → (NRIC.mk (ascii "M5043078W")).IsForeigner = some true) :=
  ⟨by decide, classification_by_prefix (ascii "M5043078W") ⟨ascii "M5043078W"⟩ (by decide)⟩

/-- C8: every failure of `NewNRIC` is of exactly one of the two kinds and
carries the candidate.  When `NewNRIC(s)` returns an error, it returns no
value, and the error either wraps `ErrInvalidFormat`, not
`ErrInvalidChecksum`, with the message `invalid NRIC format: ` followed by
`s`, or wraps `ErrInvalidChecksum`, not `ErrInvalidFormat`, with the message
`invalid NRIC checksum: ` followed by `s`. -/
theorem newNRIC_failure_kinds (s : GoString) (v : Option NRIC) (err : GoError)
    (h : NewNRIC s = some (v, some err)) :
    v = none
      ∧ ((err.Error = ascii "invalid NRIC format: " ++ s
          ∧ errorsIs err ErrInvalidFormat = true ∧ errorsIs err ErrInvalidChecksum = false)
        ∨ (err.Error = ascii "invalid NRIC checksum: " ++ s
          ∧ errorsIs err ErrInvalidChecksum = true ∧ errorsIs err ErrInvalidFormat = false)) := by
  have m1 : ∀ t : GoString, (Errorf ErrInvalidFormat t).Error
      = ascii "invalid NRIC format: " ++ t := by
    intro t
    have : ErrInvalidFormat.Error ++ ascii ": " = ascii "invalid NRIC format: " := by decide
    rw [← this]; rfl
  have m2 : ∀ t : GoString, (Errorf ErrInvalidChecksum t).Error
      = ascii "invalid NRIC checksum: " ++ t := by
    intro t
    have : ErrInvalidChecksum.Error ++ ascii ": " = ascii "invalid NRIC checksum: " := by decide
    rw [← this]; rfl
  rcases newNRIC_cases s with h0 | h0 | h0 | h0 <;> rw [h0] at h
  · cases h
  · simp at h
  · simp only [Option.some.injEq, Prod.mk.injEq] at h
    obtain ⟨hv, he⟩ := h
    subst he
    exact ⟨hv.symm, Or.inl ⟨m1 s, (errorsIs_format s).1, (errorsIs_format s).2⟩⟩
  · simp only [Option.some.injEq, Prod.mk.injEq] at h
    obtain ⟨hv, he⟩ := h
    subst he
    exact ⟨hv.symm, Or.inr ⟨m2 s, (errorsIs_checksum s).1, (errorsIs_checksum s).2⟩⟩

/-- Witness of C8 at `G8877699L`, a checksum failure. -/
theorem newNRIC_failure_kinds_witness :
    NewNRIC (ascii "G8877699L")
        = some (none, some (Errorf ErrInvalidChecksum (ascii "G8877699L")))
      ∧ ((none : Option NRIC) = none
        ∧ (((Errorf ErrInvalidChecksum (ascii "G8877699L")).Error
              = ascii "invalid NRIC format: " ++ ascii "G8877699L"
            ∧ errorsIs (Errorf ErrInvalidChecksum (ascii "G8877699L")) ErrInvalidFormat = true
            ∧ errorsIs (Errorf ErrInvalidChecksum (ascii "G8877699L")) ErrInvalidChecksum = false)
          ∨ ((Errorf ErrInvalidChecksum (ascii "G8877699L")).Error
              = ascii "invalid NRIC checksum: " ++ ascii "G8877699L"
            ∧ errorsIs (Errorf ErrInvalidChecksum (ascii "G8877699L")) ErrInvalidChecksum = true
            ∧ errorsIs (Errorf ErrInvalidChecksum (ascii "G8877699L")) ErrInvalidFormat
              = false))) :=
  ⟨by decide, newNRIC_failure_kinds (ascii "G8877699L") none _ (by decide)⟩

/-- C9: case sensitivity.  A string with no uppercase ASCII letter among its
bytes is refused with an error that wraps `ErrInvalidFormat`; it is neither
accepted nor reported as a checksum failure. -/
theorem newNRIC_no_uppercase (s : GoString)
    (h : ∀ b ∈ s, ¬ (65 ≤ b.val ∧ b.val ≤ 90)) :
    NewNRIC s = some (none, some (Errorf ErrInvalidFormat s))
      ∧ errorsIs (Errorf ErrInvalidFormat s) ErrInvalidFormat = true
      ∧ errorsIs (Errorf ErrInvalidFormat s) ErrInvalidChecksum = false := by
  refine ⟨?_, (errorsIs_format s).1, (errorsIs_format s).2⟩
  apply newNRIC_of_not_match
  cases hb : regexPattern.MatchString s with
  | false => rfl
  | true =>
    obtain ⟨-, b, hbs, hbp⟩ := match_needs_letter s hb
    exfalso
    apply h b hbs
    have e : ascii "STFGM" = [83, 84, 70, 71, 77] := by decide
    rw [e] at hbp
    simp only [List.mem_cons, List.mem_singleton, List.not_mem_nil, or_false] at hbp
    rcases hbp with rfl | rfl | rfl | rfl | rfl <;> decide

/-- Witness of C9 at `s6083480f`, the lowercased form of `S6083480F`. -/
theorem newNRIC_no_uppercase_witness :
    (∀ b ∈ ascii "s6083480f", ¬ (65 ≤ b.val ∧ b.val ≤ 90))
      ∧ NewNRIC (ascii "s6083480f")
          = some (none, some (Errorf ErrInvalidFormat (ascii "s6083480f")))
      ∧ errorsIs (Errorf ErrInvalidFormat (ascii "s6083480f")) ErrInvalidFormat = true
      ∧ errorsIs (Errorf ErrInvalidFormat (ascii "s6083480f")) ErrInvalidChecksum = false :=
  ⟨by decide, newNRIC_no_uppercase (ascii "s6083480f") (by decide)⟩

/-- C10, as stated, fails at the triple (true, true, true), in which
`IsSeriesM` implies `IsForeigner`: no identifier that `NewNRIC` accepts has
`IsForeigner`, `Is2000` and `IsSeriesM` all true. -/
theorem no_identifier_2000_and_seriesM :
    (true = true → true = true)
      ∧ ¬ ∃ (s : GoString) (n : NRIC), NewNRIC s = some (some n, none)
          ∧ n.IsForeigner = some true ∧ n.Is2000 = some true ∧ n.IsSeriesM = some true := by
  refine ⟨fun h => h, ?_⟩
  rintro ⟨s, n, h, -, hE, hM⟩
  obtain ⟨p, -, -, hE', hM', -⟩ := predicates_of_accepted s n h
  rw [hE'] at hE
  rw [hM'] at hM
  have e2 : ascii "TG" = [84, 71] := by decide
  have e3 : ascii "M" = [77] := by decide
  rw [e2] at hE
  rw [e3] at hM
  have hp : p = 77 := by simpa using hM
  subst hp
  simp at hE

/-- C10, amended: for every triple of truth values (f, e, m) in which m
implies f and e, m are not both true, some identifier accepted by `NewNRIC`
has `IsForeigner() = f`, `Is2000() = e` and `IsSeriesM() = m`. -/
theorem predicates_realised (f e m : Bool) (hmf : m = true → f = true)
    (hem : ¬ (e = true ∧ m = true)) :
    ∃ (s : GoString) (n : NRIC), NewNRIC s = some (some n, none)
      ∧ n.IsForeigner = some f ∧ n.Is2000 = some e ∧ n.IsSeriesM = some m := by
  cases f <;> cases e <;> cases m
  · exact ⟨ascii "S6083480F", ⟨ascii "S6083480F"⟩, by decide⟩
  · exact absurd (hmf rfl) (by decide)
  · exact ⟨ascii "T5717279C", ⟨ascii "T5717279C"⟩, by decide⟩
  · exact absurd (hmf rfl) (by decide)
  · exact ⟨ascii "F6470401W", ⟨ascii "F6470401W"⟩, by decide⟩
  · exact ⟨ascii "M5043078W", ⟨ascii "M5043078W"⟩, by decide⟩
  · exact ⟨ascii "G8877699U", ⟨ascii "G8877699U"⟩, by decide⟩
  · exact absurd ⟨rfl, rfl⟩ hem

/-- Witness of C10 amended at the triple (true, true, false). -/
theorem predicates_realised_witness :
    (false = true → true = true) ∧ ¬ (true = true ∧ false = true)
      ∧ ∃ (s : GoString) (n : NRIC), NewNRIC s = some (some n, none)
        ∧ n.IsForeigner = some true ∧ n.Is2000 = some true ∧ n.IsSeriesM = some false :=
  ⟨by decide, by decide, predicates_realised true true false (by decide) (by decide)⟩


/-! ## Lemmas for the remaining claims -/

theorem length_nine (s : GoString) (h : s.length = 9) :
    ∃ p d1 d2 d3 d4 d5 d6 d7 c, s = [p, d1, d2, d3, d4, d5, d6, d7, c] := by
  match s, h with
  | [p, d1, d2, d3, d4, d5, d6, d7, c], _ => exact ⟨p, d1, d2, d3, d4, d5, d6, d7, c, rfl⟩

theorem length_ge_nine (s : GoString) (h : 9 ≤ s.length) :
    ∃ p d1 d2 d3 d4 d5 d6 d7 c rest, s = p :: d1 :: d2 :: d3 :: d4 :: d5 :: d6 :: d7 :: c :: rest := by
  match s, h with
  | p :: d1 :: d2 :: d3 :: d4 :: d5 :: d6 :: d7 :: c :: rest, _ =>
    exact ⟨p, d1, d2, d3, d4, d5, d6, d7, c, rest, rfl⟩

theorem union_mem (x : Byte) :
    x ∈ ascii "XWUTRQPNMLKXWUTRQPNJLK"
      ↔ (x ∈ ascii "XWUTRQPNMLK" ∨ x ∈ ascii "XWUTRQPNJLK") := by
  have e : ascii "XWUTRQPNMLKXWUTRQPNJLK" = ascii "XWUTRQPNMLK" ++ ascii "XWUTRQPNJLK" := by
    decide
  rw [e, List.mem_append]

/-- On nine bytes the pattern and the positional check agree. -/
theorem matchString_eq_positional (p d1 d2 d3 d4 d5 d6 d7 c : Byte) :
    regexPattern.MatchString [p, d1, d2, d3, d4, d5, d6, d7, c]
      = Spec.positional [p, d1, d2, d3, d4, d5, d6, d7, c] := by
  rw [Bool.eq_iff_iff, matchString_nine, union_mem]
  simp [Spec.positional, and_assoc]

/-- The letter of the specification lies in the alphabet of the table. -/
theorem checksumLetter_table (p d1 d2 d3 d4 d5 d6 d7 g : Byte)
    (hg : Spec.checksumLetter p d1 d2 d3 d4 d5 d6 d7 = some g) :
    ∃ offset alphabet, Spec.table p = some (offset, alphabet) ∧ g ∈ alphabet := by
  unfold Spec.checksumLetter at hg
  cases ht : Spec.table p with
  | none => rw [ht] at hg; cases hg
  | some r =>
    obtain ⟨offset, alphabet⟩ := r
    rw [ht] at hg
    exact ⟨offset, alphabet, rfl, List.get?_mem hg⟩

/-- A well-formed nine-byte string whose last byte is not in the alphabet that
the table gives for its prefix passes the format check and fails the checksum
check. -/
theorem reject_letter_outside_table (p d1 d2 d3 d4 d5 d6 d7 c : Byte)
    (hp : p ∈ ascii "STFGM")
    (hd : ∀ d ∈ [d1, d2, d3, d4, d5, d6, d7], d ∈ ascii "0123456789")
    (hc : c ∈ Spec.lastAlphabet p)
    (hout : ∀ offset alphabet, Spec.table p = some (offset, alphabet) → c ∉ alphabet) :
    regexPattern.MatchString [p, d1, d2, d3, d4, d5, d6, d7, c] = true
      ∧ NewNRIC [p, d1, d2, d3, d4, d5, d6, d7, c]
        = some (none, some (Errorf ErrInvalidChecksum [p, d1, d2, d3, d4, d5, d6, d7, c])) := by
  have hne : Spec.checksumLetter p d1 d2 d3 d4 d5 d6 d7 ≠ some c := by
    intro hg
    obtain ⟨offset, alphabet, ht, hmem⟩ := checksumLetter_table p d1 d2 d3 d4 d5 d6 d7 c hg
    exact hout offset alphabet ht hmem
  have hn := newNRIC_nine p d1 d2 d3 d4 d5 d6 d7 c hp hd
  rw [if_pos hc, if_neg hne] at hn
  refine ⟨?_, hn⟩
  cases hb : regexPattern.MatchString [p, d1, d2, d3, d4, d5, d6, d7, c] with
  | true => rfl
  | false =>
    rw [newNRIC_of_not_match _ hb] at hn
    simp only [Option.some.injEq, Prod.mk.injEq, true_and] at hn
    have h1 := (errorsIs_format [p, d1, d2, d3, d4, d5, d6, d7, c]).2
    rw [hn, (errorsIs_checksum _).1] at h1
    cases h1

/-- C11: format validation is looser than checksum validation for
foreigners.  For every seven digits, the nine-byte strings `F d J` and
`G d J` (the letter `J` is in the post-2022 alphabet only) and `M d M` (the
letter `M` is in the older foreigner alphabet only) pass the format check,
and `NewNRIC` refuses each of them with an error that wraps
`ErrInvalidChecksum` and not `ErrInvalidFormat`. -/
theorem newNRIC_letter_of_other_alphabet (d1 d2 d3 d4 d5 d6 d7 : Byte)
    (hd : ∀ d ∈ [d1, d2, d3, d4, d5, d6, d7], d ∈ ascii "0123456789") :
    ∀ s ∈ [ascii "F" ++ [d1, d2, d3, d4, d5, d6, d7] ++ ascii "J",
           ascii "G" ++ [d1, d2, d3, d4, d5, d6, d7] ++ ascii "J",
           ascii "M" ++ [d1, d2, d3, d4, d5, d6, d7] ++ ascii "M"],
      regexPattern.MatchString s = true
        ∧ NewNRIC s = some (none, some (Errorf ErrInvalidChecksum s))
        ∧ errorsIs (Errorf ErrInvalidChecksum s) ErrInvalidChecksum = true
        ∧ errorsIs (Errorf ErrInvalidChecksum s) ErrInvalidFormat = false := by
  intro s hs
  have hF := reject_letter_outside_table 70 d1 d2 d3 d4 d5 d6 d7 74 (by decide) hd (by decide)
    (by
      intro offset alphabet ht
      have e : Spec.table 70 = some (0, ascii "XWUTRQPNMLK") := rfl
      rw [e] at ht
      cases ht
      decide)
  have hG := reject_letter_outside_table 71 d1 d2 d3 d4 d5 d6 d7 74 (by decide) hd (by decide)
    (by
      intro offset alphabet ht
      have e : Spec.table 71 = some (4, ascii "XWUTRQPNMLK") := rfl
      rw [e] at ht
      cases ht
      decide)
  have hM := reject_letter_outside_table 77 d1 d2 d3 d4 d5 d6 d7 77 (by decide) hd (by decide)
    (by
      intro offset alphabet ht
      have e : Spec.table 77 = some (3, ascii "XWUTRQPNJLK") := rfl
      rw [e] at ht
      cases ht
      decide)
  simp only [List.mem_cons, List.mem_singleton, List.not_mem_nil, or_false] at hs
  rcases hs with rfl | rfl | rfl
  · exact ⟨hF.1, hF.2, (errorsIs_checksum _).1, (errorsIs_checksum _).2⟩
  · exact ⟨hG.1, hG.2, (errorsIs_checksum _).1, (errorsIs_checksum _).2⟩
  · exact ⟨hM.1, hM.2, (errorsIs_checksum _).1, (errorsIs_checksum _).2⟩

/-- Witness of C11 at the digits `6470401`. -/
theorem newNRIC_letter_of_other_alphabet_witness :
    (∀ d ∈ ([54, 52, 55, 48, 52, 48, 49] : List Byte), d ∈ ascii "0123456789")
      ∧ ∀ s ∈ [ascii "F" ++ [54, 52, 55, 48, 52, 48, 49] ++ ascii "J",
               ascii "G" ++ [54, 52, 55, 48, 52, 48, 49] ++ ascii "J",
               ascii "M" ++ [54, 52, 55, 48, 52, 48, 49] ++ ascii "M"],
          regexPattern.MatchString s = true
            ∧ NewNRIC s = some (none, some (Errorf ErrInvalidChecksum s))
            ∧ errorsIs (Errorf ErrInvalidChecksum s) ErrInvalidChecksum = true
            ∧ errorsIs (Errorf ErrInvalidChecksum s) ErrInvalidFormat = false :=
  ⟨by decide, newNRIC_letter_of_other_alphabet 54 52 55 48 52 48 49 (by decide)⟩

/-- C12: on inputs of exactly nine bytes the pattern of `validate` agrees
with the whole-string positional check, and every nine-byte string that is
not of that shape is refused with an error that wraps `ErrInvalidFormat`. -/
theorem format_check_nine_bytes (s : GoString) (h : s.length = 9) :
    regexPattern.MatchString s = Spec.positional s
      ∧ (Spec.positional s = false →
          NewNRIC s = some (none, some (Errorf ErrInvalidFormat s))
            ∧ errorsIs (Errorf ErrInvalidFormat s) ErrInvalidFormat = true
            ∧ errorsIs (Errorf ErrInvalidFormat s) ErrInvalidChecksum = false) := by
  obtain ⟨p, d1, d2, d3, d4, d5, d6, d7, c, rfl⟩ := length_nine s h
  have hm := matchString_eq_positional p d1 d2 d3 d4 d5 d6 d7 c
  refine ⟨hm, fun hpos => ⟨?_, (errorsIs_format _).1, (errorsIs_format _).2⟩⟩
  exact newNRIC_of_not_match _ (hm.trans hpos)

/-- Witness of C12 at `S6083480K`, whose last letter is no citizen letter. -/
theorem format_check_nine_bytes_witness :
    (ascii "S6083480K").length = 9 ∧ Spec.positional (ascii "S6083480K") = false
      ∧ regexPattern.MatchString (ascii "S6083480K") = Spec.positional (ascii "S6083480K")
      ∧ NewNRIC (ascii "S6083480K")
          = some (none, some (Errorf ErrInvalidFormat (ascii "S6083480K")))
      ∧ errorsIs (Errorf ErrInvalidFormat (ascii "S6083480K")) ErrInvalidFormat = true
      ∧ errorsIs (Errorf ErrInvalidFormat (ascii "S6083480K")) ErrInvalidChecksum = false :=
  ⟨by decide, by decide, (format_check_nine_bytes (ascii "S6083480K") (by decide)).1,
    (format_check_nine_bytes (ascii "S6083480K") (by decide)).2 (by decide)⟩

theorem byteSub_nonneg (b c : Byte) : 0 ≤ byteSub b c := by
  unfold byteSub
  exact Int.ofNat_nonneg _

/-- On a string of at least nine bytes every step of `generateChecksum` is
defined: the offset is 0, 3 or 4, the loop reads bytes 1 to 7 and leaves a
non-negative sum, the alphabet has eleven letters and is indexed below 11. -/
theorem generateChecksum_defined (s : GoString) (h : 9 ≤ s.length) :
    ∃ offset checksum chars g,
      (NRIC.mk s).getOffset = some offset
        ∧ weightLoop s checksumWeights 0 offset = some checksum ∧ 0 ≤ checksum
        ∧ (NRIC.mk s).getChecksumChars = some chars ∧ chars.length = 11
        ∧ 0 ≤ checksum.tmod 11 ∧ checksum.tmod 11 < 11
        ∧ index chars (checksum.tmod 11) = some g
        ∧ (NRIC.mk s).generateChecksum = some g := by
  obtain ⟨p, d1, d2, d3, d4, d5, d6, d7, c, rest, rfl⟩ := length_ge_nine s h
  obtain ⟨hF, hE, hM⟩ := predicates_cons p (d1 :: d2 :: d3 :: d4 :: d5 :: d6 :: d7 :: c :: rest)
  have ho : ∃ offset : Int, (NRIC.mk (p :: d1 :: d2 :: d3 :: d4 :: d5 :: d6 :: d7 :: c :: rest)).getOffset
      = some offset ∧ 0 ≤ offset := by
    unfold NRIC.getOffset
    rw [hM, hE]
    cases decide (p ∈ ascii "M") <;> cases decide (p ∈ ascii "TG") <;>
      first
        | exact ⟨0, rfl, by decide⟩
        | exact ⟨3, rfl, by decide⟩
        | exact ⟨4, rfl, by decide⟩
  have hc : ∃ chars : GoString,
      (NRIC.mk (p :: d1 :: d2 :: d3 :: d4 :: d5 :: d6 :: d7 :: c :: rest)).getChecksumChars
        = some chars ∧ chars.length = 11 := by
    unfold NRIC.getChecksumChars
    rw [hM, hF]
    cases decide (p ∈ ascii "M") <;> cases decide (p ∈ ascii "FGM") <;>
      first
        | exact ⟨checksumCitizen, rfl, by decide⟩
        | exact ⟨checksumForeigner, rfl, by decide⟩
        | exact ⟨checksumForeigner2022, rfl, by decide⟩
  obtain ⟨offset, hoff, hpos⟩ := ho
  obtain ⟨chars, hchars, hlen⟩ := hc
  have hw := weightLoop_nine p d1 d2 d3 d4 d5 d6 d7 c rest offset
  have hsum : 0 ≤ offset + byteSub d1 48 * 2 + byteSub d2 48 * 7 + byteSub d3 48 * 6
      + byteSub d4 48 * 5 + byteSub d5 48 * 4 + byteSub d6 48 * 3 + byteSub d7 48 * 2 := by
    have := byteSub_nonneg d1 48
    have := byteSub_nonneg d2 48
    have := byteSub_nonneg d3 48
    have := byteSub_nonneg d4 48
    have := byteSub_nonneg d5 48
    have := byteSub_nonneg d6 48
    have := byteSub_nonneg d7 48
    omega
  generalize offset + byteSub d1 48 * 2 + byteSub d2 48 * 7 + byteSub d3 48 * 6
      + byteSub d4 48 * 5 + byteSub d5 48 * 4 + byteSub d6 48 * 3 + byteSub d7 48 * 2
      = checksum at hw hsum
  have h0 : 0 ≤ checksum.tmod 11 := Int.tmod_nonneg 11 hsum
  have h11 : checksum.tmod 11 < 11 := Int.tmod_lt_of_pos checksum (by decide)
  have hidx : ∃ g, index chars (checksum.tmod 11) = some g := by
    unfold index
    rw [if_pos h0]
    have hlt : (checksum.tmod 11).toNat < chars.length := by omega
    exact ⟨_, List.get?_eq_get hlt⟩
  obtain ⟨g, hg⟩ := hidx
  refine ⟨offset, checksum, chars, g, hoff, hw, hsum, hchars, hlen, h0, h11, hg, ?_⟩
  unfold NRIC.generateChecksum
  rw [hoff, hchars]
  simp only [Option.bind_eq_bind, Option.some_bind, hw, hg]

/-- C13: `NewNRIC` is total and never indexes out of range.  For every string
`NewNRIC` returns a result (it does not panic); whenever the format check
passes, the string has at least nine bytes, so the reads of `s[0]` to `s[8]`
are in bounds, the accumulated checksum is non-negative, and
`checksum % 11` is an index from 0 to 10 into an alphabet of eleven letters;
and `IsForeigner`, `Is2000`, `IsSeriesM` and `String` are defined on every
value that `NewNRIC` returns. -/
theorem newNRIC_total (s : GoString) :
    (∃ v err, NewNRIC s = some (v, err))
      ∧ (regexPattern.MatchString s = true →
          9 ≤ s.length
            ∧ (∀ i : Int, 0 ≤ i → i ≤ 8 → ∃ b, index s i = some b)
            ∧ ∃ offset checksum chars g,
                (NRIC.mk s).getOffset = some offset
                  ∧ weightLoop s checksumWeights 0 offset = some checksum ∧ 0 ≤ checksum
                  ∧ (NRIC.mk s).getChecksumChars = some chars ∧ chars.length = 11
                  ∧ 0 ≤ checksum.tmod 11 ∧ checksum.tmod 11 < 11
                  ∧ index chars (checksum.tmod 11) = some g
                  ∧ (NRIC.mk s).generateChecksum = some g)
      ∧ (∀ n, NewNRIC s = some (some n, none) →
          ∃ f e m, n.IsForeigner = some f ∧ n.Is2000 = some e ∧ n.IsSeriesM = some m
            ∧ n.String = s) := by
  have hidx : 9 ≤ s.length → ∀ i : Int, 0 ≤ i → i ≤ 8 → ∃ b, index s i = some b := by
    intro hlen i h0 h8
    unfold index
    rw [if_pos h0]
    have hlt : i.toNat < s.length := by omega
    exact ⟨_, List.get?_eq_get hlt⟩
  refine ⟨?_, ?_, ?_⟩
  · cases hb : regexPattern.MatchString s with
    | false => exact ⟨_, _, newNRIC_of_not_match s hb⟩
    | true =>
      have hlen := (match_needs_letter s hb).1
      obtain ⟨_, _, _, g, -, -, -, -, -, -, -, -, hg⟩ := generateChecksum_defined s hlen
      obtain ⟨l, hl⟩ := hidx hlen 8 (by decide) (by decide)
      have hl' : s.get? 8 = some l := by simpa [index] using hl
      rw [newNRIC_of_match s g l hb hg hl']
      by_cases e : g = l
      · rw [if_pos e]; exact ⟨_, _, rfl⟩
      · rw [if_neg e]; exact ⟨_, _, rfl⟩
  · intro hb
    have hlen := (match_needs_letter s hb).1
    exact ⟨hlen, hidx hlen, generateChecksum_defined s hlen⟩
  · intro n hn
    obtain ⟨p, -, hF, hE, hM, -⟩ := predicates_of_accepted s n hn
    refine ⟨_, _, _, hF, hE, hM, ?_⟩
    rw [(newNRIC_ok s n none hn).1]
    rfl

/-- Witness of C13 at `M2424771J`, which passes the format check and is
accepted. -/
theorem newNRIC_total_witness :
    regexPattern.MatchString (ascii "M2424771J") = true
      ∧ NewNRIC (ascii "M2424771J") = some (some ⟨ascii "M2424771J"⟩, none)
      ∧ (9 ≤ (ascii "M2424771J").length
        ∧ (∀ i : Int, 0 ≤ i → i ≤ 8 → ∃ b, index (ascii "M2424771J") i = some b)
        ∧ ∃ offset checksum chars g,
            (NRIC.mk (ascii "M2424771J")).getOffset = some offset
              ∧ weightLoop (ascii "M2424771J") checksumWeights 0 offset = some checksum
              ∧ 0 ≤ checksum
              ∧ (NRIC.mk (ascii "M2424771J")).getChecksumChars = some chars
              ∧ chars.length = 11
              ∧ 0 ≤ checksum.tmod 11 ∧ checksum.tmod 11 < 11
              ∧ index chars (checksum.tmod 11) = some g
              ∧ (NRIC.mk (ascii "M2424771J")).generateChecksum = some g)
      ∧ ∃ f e m, (NRIC.mk (ascii "M2424771J")).IsForeigner = some f
          ∧ (NRIC.mk (ascii "M2424771J")).Is2000 = some e
          ∧ (NRIC.mk (ascii "M2424771J")).IsSeriesM = some m
          ∧ (NRIC.mk (ascii "M2424771J")).String = ascii "M2424771J" :=
  ⟨by decide, by decide, (newNRIC_total (ascii "M2424771J")).2.1 (by decide),
    (newNRIC_total (ascii "M2424771J")).2.2 _ (by decide)⟩

theorem digitValue_le (d : Byte) (h : d ∈ ascii "0123456789") : Spec.digitValue d ≤ 9 := by
  rw [mem_digits] at h
  unfold Spec.digitValue
  omega

theorem digitValue_ne (d e : Byte) (hd : d ∈ ascii "0123456789")
    (he : e ∈ ascii "0123456789") (hne : d ≠ e) : Spec.digitValue d ≠ Spec.digitValue e := by
  rw [mem_digits] at hd he
  unfold Spec.digitValue
  intro h
  apply hne
  apply Fin.ext
  omega

/-- The alphabets of the table have no repeated letter. -/
theorem table_injective (p : Byte) (offset : Nat) (alphabet : GoString)
    (ht : Spec.table p = some (offset, alphabet)) :
    ∀ i < 11, ∀ j < 11, alphabet.get? i = alphabet.get? j → i = j := by
  unfold Spec.table at ht
  split_ifs at ht <;> simp only [Option.some.injEq, Prod.mk.injEq] at ht <;>
    obtain ⟨-, rfl⟩ := ht <;> decide

/-- After an accepted nine-byte string, the same prefix and last byte with
seven digits whose weighted sum differs modulo 11 are refused with the
checksum error. -/
theorem newNRIC_other_digits (p d1 d2 d3 d4 d5 d6 d7 e1 e2 e3 e4 e5 e6 e7 c : Byte)
    (hacc : NewNRIC [p, d1, d2, d3, d4, d5, d6, d7, c]
      = some (some ⟨[p, d1, d2, d3, d4, d5, d6, d7, c]⟩, none))
    (he : ∀ e ∈ [e1, e2, e3, e4, e5, e6, e7], e ∈ ascii "0123456789")
    (hsum : (2 * Spec.digitValue d1 + 7 * Spec.digitValue d2 + 6 * Spec.digitValue d3
        + 5 * Spec.digitValue d4 + 4 * Spec.digitValue d5 + 3 * Spec.digitValue d6
        + 2 * Spec.digitValue d7) % 11
      ≠ (2 * Spec.digitValue e1 + 7 * Spec.digitValue e2 + 6 * Spec.digitValue e3
        + 5 * Spec.digitValue e4 + 4 * Spec.digitValue e5 + 3 * Spec.digitValue e6
        + 2 * Spec.digitValue e7) % 11) :
    ∃ err, NewNRIC [p, e1, e2, e3, e4, e5, e6, e7, c] = some (none, some err)
      ∧ errorsIs err ErrInvalidChecksum = true ∧ errorsIs err ErrInvalidFormat = false := by
  obtain ⟨hp, -, hg⟩ := accepted_nine p d1 d2 d3 d4 d5 d6 d7 c _ hacc
  obtain ⟨g, hg', hmem⟩ := checksumLetter_mem p d1 d2 d3 d4 d5 d6 d7 hp
  rw [hg] at hg'
  have hc : c ∈ Spec.lastAlphabet p := by rw [Option.some.inj hg']; exact hmem
  have hne : Spec.checksumLetter p e1 e2 e3 e4 e5 e6 e7 ≠ some c := by
    intro hx
    unfold Spec.checksumLetter at hg hx
    cases ht : Spec.table p with
    | none => rw [ht] at hg; cases hg
    | some r =>
      obtain ⟨offset, alphabet⟩ := r
      rw [ht] at hg hx
      have hinj := table_injective p offset alphabet ht _ (Nat.mod_lt _ (by decide)) _
        (Nat.mod_lt _ (by decide)) (hg.trans hx.symm)
      omega
  have hn := newNRIC_nine p e1 e2 e3 e4 e5 e6 e7 c hp he
  rw [if_pos hc, if_neg hne] at hn
  exact ⟨_, hn, (errorsIs_checksum _).1, (errorsIs_checksum _).2⟩

/-- C14: the checksum detects every single-digit substitution.  For every
nine-byte string accepted by `NewNRIC`, every position `i` from 1 to 7 and
every ASCII digit `d` different from the byte at `i`, the string with the
byte at `i` replaced by `d` is refused with an error that wraps
`ErrInvalidChecksum`. -/
theorem single_digit_substitution_detected (p d1 d2 d3 d4 d5 d6 d7 c d : Byte) (i : Nat)
    (hacc : NewNRIC [p, d1, d2, d3, d4, d5, d6, d7, c]
      = some (some ⟨[p, d1, d2, d3, d4, d5, d6, d7, c]⟩, none))
    (hi : 1 ≤ i ∧ i ≤ 7) (hd : d ∈ ascii "0123456789")
    (hne : [p, d1, d2, d3, d4, d5, d6, d7, c].get? i ≠ some d) :
    ∃ err, NewNRIC ([p, d1, d2, d3, d4, d5, d6, d7, c].set i d) = some (none, some err)
      ∧ errorsIs err ErrInvalidChecksum = true ∧ errorsIs err ErrInvalidFormat = false := by
  obtain ⟨-, hds, -⟩ := accepted_nine p d1 d2 d3 d4 d5 d6 d7 c _ hacc
  simp only [List.mem_cons, List.mem_singleton, List.not_mem_nil, or_false, forall_eq_or_imp,
    forall_eq] at hds
  obtain ⟨h1, h2, h3, h4, h5, h6, h7⟩ := hds
  have b1 := digitValue_le d1 h1
  have b2 := digitValue_le d2 h2
  have b3 := digitValue_le d3 h3
  have b4 := digitValue_le d4 h4
  have b5 := digitValue_le d5 h5
  have b6 := digitValue_le d6 h6
  have b7 := digitValue_le d7 h7
  have b := digitValue_le d hd
  have key := newNRIC_other_digits p d1 d2 d3 d4 d5 d6 d7
  have all : ∀ e1 e2 e3 e4 e5 e6 e7 : Byte, e1 ∈ ascii "0123456789" →
      e2 ∈ ascii "0123456789" → e3 ∈ ascii "0123456789" → e4 ∈ ascii "0123456789" →
      e5 ∈ ascii "0123456789" → e6 ∈ ascii "0123456789" → e7 ∈ ascii "0123456789" →
      ∀ e ∈ [e1, e2, e3, e4, e5, e6, e7], e ∈ ascii "0123456789" := by
    intro e1 e2 e3 e4 e5 e6 e7 g1 g2 g3 g4 g5 g6 g7
    simp only [List.mem_cons, List.mem_singleton, List.not_mem_nil, or_false, forall_eq_or_imp,
      forall_eq]
    exact ⟨g1, g2, g3, g4, g5, g6, g7⟩
  obtain ⟨hi1, hi7⟩ := hi
  interval_cases i
  · have n := digitValue_ne d1 d h1 hd (fun h => hne (by rw [h]; rfl))
    exact key d d2 d3 d4 d5 d6 d7 c hacc (all _ _ _ _ _ _ _ hd h2 h3 h4 h5 h6 h7) (by omega)
  · have n := digitValue_ne d2 d h2 hd (fun h => hne (by rw [h]; rfl))
    exact key d1 d d3 d4 d5 d6 d7 c hacc (all _ _ _ _ _ _ _ h1 hd h3 h4 h5 h6 h7) (by omega)
  · have n := digitValue_ne d3 d h3 hd (fun h => hne (by rw [h]; rfl))
    exact key d1 d2 d d4 d5 d6 d7 c hacc (all _ _ _ _ _ _ _ h1 h2 hd h4 h5 h6 h7) (by omega)
  · have n := digitValue_ne d4 d h4 hd (fun h => hne (by rw [h]; rfl))
    exact key d1 d2 d3 d d5 d6 d7 c hacc (all _ _ _ _ _ _ _ h1 h2 h3 hd h5 h6 h7) (by omega)
  · have n := digitValue_ne d5 d h5 hd (fun h => hne (by rw [h]; rfl))
    exact key d1 d2 d3 d4 d d6 d7 c hacc (all _ _ _ _ _ _ _ h1 h2 h3 h4 hd h6 h7) (by omega)
  · have n := digitValue_ne d6 d h6 hd (fun h => hne (by rw [h]; rfl))
    exact key d1 d2 d3 d4 d5 d d7 c hacc (all _ _ _ _ _ _ _ h1 h2 h3 h4 h5 hd h7) (by omega)
  · have n := digitValue_ne d7 d h7 hd (fun h => hne (by rw [h]; rfl))
    exact key d1 d2 d3 d4 d5 d6 d c hacc (all _ _ _ _ _ _ _ h1 h2 h3 h4 h5 h6 hd) (by omega)

/-- Witness of C14 at `S6083480F` with the digit at position 3 replaced by `9`. -/
theorem single_digit_substitution_detected_witness :
    NewNRIC (ascii "S6083480F") = some (some ⟨ascii "S6083480F"⟩, none)
      ∧ (1 ≤ 3 ∧ 3 ≤ 7) ∧ (57 : Byte) ∈ ascii "0123456789"
      ∧ (ascii "S6083480F").get? 3 ≠ some 57
      ∧ ∃ err, NewNRIC ((ascii "S6083480F").set 3 57) = some (none, some err)
          ∧ errorsIs err ErrInvalidChecksum = true ∧ errorsIs err ErrInvalidFormat = false :=
  ⟨by decide, by decide, by decide, by decide,
    single_digit_substitution_detected 83 54 48 56 51 52 56 48 70 57 3 (by decide) (by decide)
      (by decide) (by decide)⟩

/-- C15: the checksum detects every transposition of two adjacent, different
digits.  For every nine-byte string accepted by `NewNRIC` and every position
`i` from 1 to 6 whose byte differs from the byte at `i + 1`, the string with
these two bytes swapped is refused with an error that wraps
`ErrInvalidChecksum`. -/
theorem adjacent_transposition_detected (p d1 d2 d3 d4 d5 d6 d7 c a b : Byte) (i : Nat)
    (hacc : NewNRIC [p, d1, d2, d3, d4, d5, d6, d7, c]
      = some (some ⟨[p, d1, d2, d3, d4, d5, d6, d7, c]⟩, none))
    (hi : 1 ≤ i ∧ i ≤ 6)
    (ha : [p, d1, d2, d3, d4, d5, d6, d7, c].get? i = some a)
    (hb : [p, d1, d2, d3, d4, d5, d6, d7, c].get? (i + 1) = some b)
    (hne : a ≠ b) :
    ∃ err, NewNRIC (([p, d1, d2, d3, d4, d5, d6, d7, c].set i b).set (i + 1) a)
        = some (none, some err)
      ∧ errorsIs err ErrInvalidChecksum = true ∧ errorsIs err ErrInvalidFormat = false := by
  obtain ⟨-, hds, -⟩ := accepted_nine p d1 d2 d3 d4 d5 d6 d7 c _ hacc
  have key := newNRIC_other_digits p d1 d2 d3 d4 d5 d6 d7
  simp only [List.mem_cons, List.mem_singleton, List.not_mem_nil, or_false, forall_eq_or_imp,
    forall_eq] at hds
  obtain ⟨h1, h2, h3, h4, h5, h6, h7⟩ := hds
  have b1 := digitValue_le d1 h1
  have b2 := digitValue_le d2 h2
  have b3 := digitValue_le d3 h3
  have b4 := digitValue_le d4 h4
  have b5 := digitValue_le d5 h5
  have b6 := digitValue_le d6 h6
  have b7 := digitValue_le d7 h7
  have all : ∀ e1 e2 e3 e4 e5 e6 e7 : Byte, e1 ∈ ascii "0123456789" →
      e2 ∈ ascii "0123456789" → e3 ∈ ascii "0123456789" → e4 ∈ ascii "0123456789" →
      e5 ∈ ascii "0123456789" → e6 ∈ ascii "0123456789" → e7 ∈ ascii "0123456789" →
      ∀ e ∈ [e1, e2, e3, e4, e5, e6, e7], e ∈ ascii "0123456789" := by
    intro e1 e2 e3 e4 e5 e6 e7 g1 g2 g3 g4 g5 g6 g7
    simp only [List.mem_cons, List.mem_singleton, List.not_mem_nil, or_false, forall_eq_or_imp,
      forall_eq]
    exact ⟨g1, g2, g3, g4, g5, g6, g7⟩
  obtain ⟨hi1, hi6⟩ := hi
  interval_cases i
  · obtain rfl : d1 = a := Option.some.inj ha
    obtain rfl : d2 = b := Option.some.inj hb
    have n := digitValue_ne d1 d2 h1 h2 hne
    exact key d2 d1 d3 d4 d5 d6 d7 c hacc (all _ _ _ _ _ _ _ h2 h1 h3 h4 h5 h6 h7) (by omega)
  · obtain rfl : d2 = a := Option.some.inj ha
    obtain rfl : d3 = b := Option.some.inj hb
    have n := digitValue_ne d2 d3 h2 h3 hne
    exact key d1 d3 d2 d4 d5 d6 d7 c hacc (all _ _ _ _ _ _ _ h1 h3 h2 h4 h5 h6 h7) (by omega)
  · obtain rfl : d3 = a := Option.some.inj ha
    obtain rfl : d4 = b := Option.some.inj hb
    have n := digitValue_ne d3 d4 h3 h4 hne
    exact key d1 d2 d4 d3 d5 d6 d7 c hacc (all _ _ _ _ _ _ _ h1 h2 h4 h3 h5 h6 h7) (by omega)
  · obtain rfl : d4 = a := Option.some.inj ha
    obtain rfl : d5 = b := Option.some.inj hb
    have n := digitValue_ne d4 d5 h4 h5 hne
    exact key d1 d2 d3 d5 d4 d6 d7 c hacc (all _ _ _ _ _ _ _ h1 h2 h3 h5 h4 h6 h7) (by omega)
  · obtain rfl : d5 = a := Option.some.inj ha
    obtain rfl : d6 = b := Option.some.inj hb
    have n := digitValue_ne d5 d6 h5 h6 hne
    exact key d1 d2 d3 d4 d6 d5 d7 c hacc (all _ _ _ _ _ _ _ h1 h2 h3 h4 h6 h5 h7) (by omega)
  · obtain rfl : d6 = a := Option.some.inj ha
    obtain rfl : d7 = b := Option.some.inj hb
    have n := digitValue_ne d6 d7 h6 h7 hne
    exact key d1 d2 d3 d4 d5 d7 d6 c hacc (all _ _ _ _ _ _ _ h1 h2 h3 h4 h5 h7 h6) (by omega)

/-- Witness of C15 at `T5717279C` with the digits at positions 1 and 2
swapped. -/
theorem adjacent_transposition_detected_witness :
    NewNRIC (ascii "T5717279C") = some (some ⟨ascii "T5717279C"⟩, none)
      ∧ (1 ≤ 1 ∧ 1 ≤ 6)
      ∧ (ascii "T5717279C").get? 1 = some 53 ∧ (ascii "T5717279C").get? (1 + 1) = some 55
      ∧ (53 : Byte) ≠ 55
      ∧ ∃ err, NewNRIC (((ascii "T5717279C").set 1 55).set (1 + 1) 53) = some (none, some err)
          ∧ errorsIs err ErrInvalidChecksum = true ∧ errorsIs err ErrInvalidFormat = false :=
  ⟨by decide, by decide, by decide, by decide, by decide,
    adjacent_transposition_detected 84 53 55 49 55 50 55 57 67 53 55 1 (by decide) (by decide)
      (by decide) (by decide) (by decide)⟩

end Nric
